import Mathlib

/-!
Verification of the pending-response correlation engine of `matrix_mcp_server.py`
(class `MatrixMCPServer`): the registry `pending_responses`, the dispatcher
`_check_pending_responses`, the waiter `_wait_for_response` with its
`timeout_handler` task, and shutdown `cleanup`.

The asyncio program is embedded shallowly: the registry is an insertion-ordered
association of waits (Python dicts preserve insertion order, and registrations
only ever insert at the end); each synchronous block between `await` points
becomes one atomic step of a transition relation.
-/

namespace MatrixChat

/-- An inbound chat event, as seen by `_check_pending_responses(evt)`:
`evt.room_id`, `evt.sender`, `evt.content.body`, `evt.timestamp`. -/
structure Event where
  room_id : String
  sender : String
  body : String
  timestamp : Nat
deriving DecidableEq

/-- The `response_data` dict built at source lines 180-185:
keys `message`, `sender`, `room_id`, `timestamp`. -/
structure ResponseData where
  message : String
  sender : String
  room_id : String
  timestamp : Nat
deriving DecidableEq

/-- State of the `asyncio.Future` held by a `PendingResponse`:
unresolved, resolved with `response_data` (`set_result`, line 186), resolved
with `asyncio.TimeoutError` (`set_exception`, line 262), or cancelled
(`future.cancel()`, line 355).  `future.done()` holds in every state except
`pending`. -/
inductive FutureState where
  | pending
  | result (d : ResponseData)
  | timeoutError (secs : Int)
  | cancelled
deriving DecidableEq

/-- State of the `timeout_task` created at line 264: still sleeping (`armed`),
ran to completion (`fired`), or cancelled.  `task.done()` holds in the `fired`
and `cancelled` states. -/
inductive TimerState where
  | armed
  | fired
  | cancelled
deriving DecidableEq

/-- One wait: the dataclass `PendingResponse(room_id, response_from, future,
timeout_task)` together with its dict key `id` (`response_id`), its registry
membership `inRegistry` (`id in pending_responses`; removal from the dict is
modeled by clearing the flag so that the future and timer of a removed wait
stay observable, as they do through the references the waiter and the event
loop hold), and the data captured by the `timeout_handler` closure:
`timeout_seconds` and the time `armedAt` at which the wait was registered.
`timeout_task` is assigned at every registration (lines 264-273) before the
dict insertion, so the registry never holds the dataclass default `None` and
the timer is modeled without an `Option`. -/
structure Wait where
  id : String
  room_id : String
  response_from : Option String
  future : FutureState
  timer : TimerState
  inRegistry : Bool
  timeout_seconds : Int
  armedAt : Int
deriving DecidableEq

/-- Python truthiness of `pending.response_from` (an `Optional[str]`) in the
guard at line 175: `None` and the empty string are falsy. -/
def truthyFrom : Option String → Bool
  | none => false
  | some s => decide (s ≠ "")

/-- The filter guard at line 175:
`if pending.response_from and str(evt.sender) != pending.response_from: continue`. -/
def blockedByFilter (evt : Event) (w : Wait) : Bool :=
  truthyFrom w.response_from && decide (evt.sender ≠ w.response_from.getD "")

/-- A registry entry the scan at lines 170-176 does not skip: it is in the
dict, its room equals the room of the event (line 171), and the `response_from`
guard (line 175) does not fire. -/
def eligible (evt : Event) (w : Wait) : Bool :=
  w.inRegistry && decide (evt.room_id = w.room_id) && !blockedByFilter evt w

/-- The match body at lines 178-193 applied to one wait: `set_result` with the
four-field `response_data` if the future is not yet done (lines 179-186),
cancel the timeout task if it is not yet done (lines 188-190), and delete the
entry from the registry (line 193). -/
def resolveWait (evt : Event) (w : Wait) : Wait :=
  { w with
    future := match w.future with
      | .pending => .result ⟨evt.body, evt.sender, evt.room_id, evt.timestamp⟩
      | f => f
    timer := match w.timer with
      | .armed => .cancelled
      | t => t
    inRegistry := false }

/-- The loop at lines 170-194: walk the registry in insertion order, skip
ineligible entries, and on the first eligible entry apply the match body and
`break`. -/
def scanPending (evt : Event) : List Wait → List Wait
  | [] => []
  | w :: ws =>
    if eligible evt w then resolveWait evt w :: ws
    else w :: scanPending evt ws

/-- `_check_pending_responses` (lines 164-194): return immediately on a
self-authored event (lines 166-167), otherwise scan the registry. -/
def checkPendingResponses (botId : String) (evt : Event) (ws : List Wait) : List Wait :=
  if evt.sender = botId then ws else scanPending evt ws

/-- Effect of `timeout_handler` (lines 261-262) on one wait: if the task of this wait is the one firing and it is still armed, set `asyncio.TimeoutError(...)`
carrying the `timeout_seconds` of the wait unless the future is already done; the
task then completes.  Registry membership is not touched here. -/
def timeoutFireFn (fid : String) (w : Wait) : Wait :=
  if w.id = fid ∧ w.timer = .armed then
    { w with
      future := match w.future with
        | .pending => .timeoutError w.timeout_seconds
        | f => f
      timer := .fired }
  else w

/-- The body of `timeout_handler` after `asyncio.sleep` returns (lines
261-262), for the task belonging to wait `fid`.  A task only runs this body
while it is still armed (a cancelled task is interrupted inside the sleep). -/
def timeoutFireAt (fid : String) (ws : List Wait) : List Wait :=
  ws.map (timeoutFireFn fid)

/-- Effect of the `finally` block of `_wait_for_response` (lines 289-294) on
one wait: for the entry owned by the waiter, delete it from the registry if still
present and cancel the timeout task if it is not done. -/
def waiterCleanupFn (wid : String) (w : Wait) : Wait :=
  if w.id = wid then
    { w with
      inRegistry := false
      timer := match w.timer with
        | .armed => .cancelled
        | t => t }
  else w

/-- The `finally` block of `_wait_for_response` (lines 289-294). -/
def waiterCleanup (wid : String) (ws : List Wait) : List Wait :=
  ws.map (waiterCleanupFn wid)

/-- Effect of shutdown `cleanup` (lines 347-359) on one wait: for every
registry entry, cancel the future if it is not done and cancel the timeout
task if it is not done, then the dict is cleared. -/
def cleanupFn (w : Wait) : Wait :=
  if w.inRegistry then
    { w with
      future := match w.future with
        | .pending => .cancelled
        | f => f
      timer := match w.timer with
        | .armed => .cancelled
        | t => t
      inRegistry := false }
  else w

/-- Shutdown `cleanup` (lines 347-359). -/
def cleanupAll (ws : List Wait) : List Wait :=
  ws.map cleanupFn

/-- The success text returned at lines 279-282:
an f-string rendering the sender and message fields of `response_data`. -/
def successText (d : ResponseData) : String :=
  "Received response from " ++ d.sender ++ ": " ++ d.message

/-- The `asyncio.TimeoutError` message built at line 262:
`f"No response received within {timeout_seconds} seconds"`. -/
def timeoutMessage (secs : Int) : String :=
  "No response received within " ++ toString secs ++ " seconds"

/-- The timeout text returned at lines 284-288: `f"Timeout: {str(e)}"`. -/
def timeoutText (secs : Int) : String :=
  "Timeout: " ++ timeoutMessage secs

/-- The registry key generated at line 255:
`f"{actual_room_id}:{asyncio.get_event_loop().time()}"`.  The event-loop
clock reading is abstracted as a natural number; the loop clock is monotone
but not strictly increasing across calls. -/
def mkResponseId (room : String) (loopTime : Nat) : String :=
  room ++ ":" ++ toString loopTime

/-- Python dict assignment `d[k] = v` on an insertion-ordered dict: replace in
place if the key is present, else append. -/
def dictAssign {α : Type} (k : String) (v : α) : List (String × α) → List (String × α)
  | [] => [(k, v)]
  | (k', v') :: rest =>
    if k' = k then (k, v) :: rest else (k', v') :: dictAssign k v rest

/-- The arguments of one `wait_for_response` tool call (lines 232-235). -/
structure CallArgs where
  room_id : String
  message : String
  timeout_seconds : Int
  response_from : Option String

/-- Control position of one `_wait_for_response` coroutine between `await`
points: before the send (line 239); after the send succeeded but before the
registration block (the alias-resolution awaits at lines 246-250 sit here);
suspended at `await future` (line 277); returned the success text (lines
279-282); returned the timeout text (lines 285-288); raised out of the call
after the send failed (lines 296-298); raised `CancelledError` out of the
call (not caught by `except Exception`). -/
inductive WaiterPhase where
  | start
  | sentPrompt
  | waiting
  | returnedResponse (d : ResponseData)
  | returnedTimeout (secs : Int)
  | raisedSendError (e : String)
  | raisedCancelled
deriving DecidableEq

/-- Global state of the event loop as it concerns one distinguished
`wait_for_response` call: the registry-plus-futures list, the control
position of the call, the loop clock, and whether the prompt send of the
call completed. -/
structure Sys where
  waits : List Wait
  phase : WaiterPhase
  now : Int
  sent : Bool
deriving DecidableEq

/-- The `PendingResponse` built and inserted at lines 256-273, with the dict
key `wid`, a fresh unresolved future, and the just-created timeout task. -/
def mkWait (cfg : CallArgs) (wid : String) (now : Int) : Wait :=
  { id := wid
    room_id := cfg.room_id
    response_from := cfg.response_from
    future := .pending
    timer := .armed
    inRegistry := true
    timeout_seconds := cfg.timeout_seconds
    armedAt := now }

/-- Look a wait up by its id. -/
def getWait (wid : String) (ws : List Wait) : Option Wait :=
  ws.find? fun w => w.id = wid

/-- Earliest loop time at which the `asyncio.sleep(timeout_seconds)` of a
timeout task of a wait can return: `asyncio.sleep` returns immediately for a
non-positive delay, hence the clamp to zero. -/
def fireDeadline (w : Wait) : Int :=
  w.armedAt + max w.timeout_seconds 0

/-- One atomic step of the event loop, from the point of view of the
distinguished `wait_for_response` call with arguments `cfg` and registry key
`wid`, on a server whose own identity is `bot`.  Each constructor is one
synchronous block of the source:

* `sendOk` / `sendFail` — the `await self._send_message(...)` at line 239
  returns or raises; on failure the `except` at lines 296-298 re-raises and
  nothing after line 239 runs.
* `register` — the synchronous block at lines 254-277 up to `await future`:
  generate the key, create the future, create the timeout task, insert into
  the registry, suspend.  The generated key is assumed fresh here; the
  colliding-key case of `mkResponseId` is analysed separately.
* `dispatch` — the enhanced message handler (lines 149-151) runs
  `_check_pending_responses` on one inbound event.
* `fire` — the timeout task of wait `fid` wakes from its sleep and runs
  lines 261-262; possible only while that task is still armed and only once
  the loop clock has passed the sleep deadline.
* `resumeSuccess` / `resumeTimeout` — `await future` (line 277) resumes with
  a result or with the `TimeoutError`; the `finally` block (lines 289-294)
  runs and the call returns the success text (lines 279-282) or the timeout
  text (lines 285-288).
* `resumeCancelled` — the suspended call is cancelled (caller cancellation,
  or `future.cancel()` from shutdown `cleanup`); `CancelledError` is raised
  at `await future`, the `finally` block runs, and the error propagates
  (`except Exception` does not catch `CancelledError`).
* `cancelEarly` — the call is cancelled before the registration block; no
  registry entry exists yet, so nothing is cleaned up.
* `shutdown` — `cleanup` (lines 347-359) runs.
* `tick` — the loop clock advances. -/
inductive Step (cfg : CallArgs) (bot wid : String) : Sys → Sys → Prop where
  | sendOk (s : Sys) (h : s.phase = .start) :
      Step cfg bot wid s { s with phase := .sentPrompt, sent := true }
  | sendFail (s : Sys) (e : String) (h : s.phase = .start) :
      Step cfg bot wid s { s with phase := .raisedSendError e }
  | register (s : Sys) (h : s.phase = .sentPrompt)
      (hfresh : ∀ w ∈ s.waits, w.id ≠ wid) :
      Step cfg bot wid s
        { s with waits := s.waits ++ [mkWait cfg wid s.now], phase := .waiting }
  | dispatch (s : Sys) (evt : Event) :
      Step cfg bot wid s { s with waits := checkPendingResponses bot evt s.waits }
  | fire (s : Sys) (fid : String) (w : Wait)
      (hw : getWait fid s.waits = some w) (ht : w.timer = .armed)
      (hd : ∀ w' ∈ s.waits, w'.id = fid → fireDeadline w' ≤ s.now) :
      Step cfg bot wid s { s with waits := timeoutFireAt fid s.waits }
  | resumeSuccess (s : Sys) (w : Wait) (d : ResponseData)
      (h : s.phase = .waiting) (hw : getWait wid s.waits = some w)
      (hf : w.future = .result d) :
      Step cfg bot wid s
        { s with waits := waiterCleanup wid s.waits, phase := .returnedResponse d }
  | resumeTimeout (s : Sys) (w : Wait) (secs : Int)
      (h : s.phase = .waiting) (hw : getWait wid s.waits = some w)
      (hf : w.future = .timeoutError secs) :
      Step cfg bot wid s
        { s with waits := waiterCleanup wid s.waits, phase := .returnedTimeout secs }
  | resumeCancelled (s : Sys) (h : s.phase = .waiting) :
      Step cfg bot wid s
        { s with waits := waiterCleanup wid s.waits, phase := .raisedCancelled }
  | cancelEarly (s : Sys) (h : s.phase = .start ∨ s.phase = .sentPrompt) :
      Step cfg bot wid s { s with phase := .raisedCancelled }
  | shutdown (s : Sys) :
      Step cfg bot wid s { s with waits := cleanupAll s.waits }
  | tick (s : Sys) (t : Int) (h : s.now ≤ t) :
      Step cfg bot wid s { s with now := t }

/-- Finitely many steps of the event loop. -/
def Reachable (cfg : CallArgs) (bot wid : String) : Sys → Sys → Prop :=
  Relation.ReflTransGen (Step cfg bot wid)

/-- A state in which the distinguished call has not started: it sits before
the send, its prompt is unsent, and its registry key is not yet taken. -/
def Init (wid : String) (s : Sys) : Prop :=
  s.phase = .start ∧ s.sent = false ∧ ∀ w ∈ s.waits, w.id ≠ wid

/-- Phases in which the distinguished call has exited (returned or raised). -/
def TerminalPhase : WaiterPhase → Prop
  | .returnedResponse _ => True
  | .returnedTimeout _ => True
  | .raisedSendError _ => True
  | .raisedCancelled => True
  | _ => False

/-- Phases in which the registration block (lines 254-273) has not run. -/
def PreRegPhase : WaiterPhase → Prop
  | .start => True
  | .sentPrompt => True
  | .raisedSendError _ => True
  | _ => False

/-- The text a terminal phase hands back to the caller of `call_tool`: the success
string of lines 279-282, the timeout string of lines 285-288, or nothing when
the call raised. -/
def returnText : WaiterPhase → Option String
  | .returnedResponse d => some (successText d)
  | .returnedTimeout secs => some (timeoutText secs)
  | _ => none

/-- Concrete scenario: a call with a 60-second timeout and no sender filter. -/
def cfgA : CallArgs :=
  { room_id := "!room:hs", message := "pick a category", timeout_seconds := 60,
    response_from := none }

/-- The identity of the server itself in the concrete scenarios. -/
def botA : String := "@bot:hs"

/-- The registry key generated for the concrete call. -/
def widA : String := mkResponseId "!room:hs" 1000

/-- Concrete scenario start: empty registry, call not yet begun, clock at 0. -/
def sysA0 : Sys := { waits := [], phase := .start, now := 0, sent := false }

/-- After the prompt send succeeded. -/
def sysA1 : Sys := { sysA0 with phase := .sentPrompt, sent := true }

/-- After the registration block: the wait is registered and the call is
suspended at `await future`. -/
def sysA2 : Sys :=
  { sysA1 with waits := sysA1.waits ++ [mkWait cfgA widA sysA1.now], phase := .waiting }

/-- The loop clock reaches the timeout deadline. -/
def sysA3 : Sys := { sysA2 with now := 60 }

/-- The timeout task fired: the future now holds the `TimeoutError`, but the
entry is still in the registry. -/
def sysA4 : Sys := { sysA3 with waits := timeoutFireAt widA sysA3.waits }

/-- The call resumed, ran its `finally` cleanup and returned the timeout
text. -/
def sysA5 : Sys :=
  { sysA4 with waits := waiterCleanup widA sysA4.waits, phase := .returnedTimeout 60 }

/-- Concrete inbound event from a human in the scenario room. -/
def evtB : Event :=
  { room_id := "!room:hs", sender := "@alice:hs", body := "wisdom please", timestamp := 5 }

/-- The `response_data` the dispatcher builds for `evtB`. -/
def dB : ResponseData :=
  { message := "wisdom please", sender := "@alice:hs", room_id := "!room:hs", timestamp := 5 }

/-- After the dispatcher matched `evtB` against the registered wait. -/
def sysB3 : Sys := { sysA2 with waits := checkPendingResponses botA evtB sysA2.waits }

/-- The call resumed with the matched data and returned the success text. -/
def sysB4 : Sys :=
  { sysB3 with waits := waiterCleanup widA sysB3.waits, phase := .returnedResponse dB }

/-- After the prompt send failed: the call raised, nothing was registered. -/
def sysF1 : Sys := { sysA0 with phase := .raisedSendError "send rejected" }

/-- Concrete scenario with a non-positive timeout. -/
def cfgN : CallArgs :=
  { room_id := "!room:hs", message := "pick a category", timeout_seconds := -5,
    response_from := none }

/-- Non-positive-timeout scenario: after the prompt send succeeded. -/
def sysN1 : Sys := { sysA0 with phase := .sentPrompt, sent := true }

/-- Non-positive-timeout scenario: the wait is registered, the timer armed. -/
def sysN2 : Sys :=
  { sysN1 with waits := sysN1.waits ++ [mkWait cfgN widA sysN1.now], phase := .waiting }

/-- Non-positive-timeout scenario: the timer fired immediately (the sleep of a
non-positive duration returns at once). -/
def sysN3 : Sys := { sysN2 with waits := timeoutFireAt widA sysN2.waits }

/-- Non-positive-timeout scenario: the call returned a timeout outcome
carrying the non-positive duration. -/
def sysN4 : Sys :=
  { sysN3 with waits := waiterCleanup widA sysN3.waits, phase := .returnedTimeout (-5) }

theorem resolveWait_id (evt : Event) (w : Wait) : (resolveWait evt w).id = w.id := rfl

theorem resolveWait_room_id (evt : Event) (w : Wait) :
    (resolveWait evt w).room_id = w.room_id := rfl

theorem resolveWait_response_from (evt : Event) (w : Wait) :
    (resolveWait evt w).response_from = w.response_from := rfl

theorem resolveWait_timeout_seconds (evt : Event) (w : Wait) :
    (resolveWait evt w).timeout_seconds = w.timeout_seconds := rfl

theorem resolveWait_armedAt (evt : Event) (w : Wait) :
    (resolveWait evt w).armedAt = w.armedAt := rfl

theorem resolveWait_inRegistry (evt : Event) (w : Wait) :
    (resolveWait evt w).inRegistry = false := rfl

theorem resolveWait_future_of_done (evt : Event) (w : Wait) (h : w.future ≠ .pending) :
    (resolveWait evt w).future = w.future := by
  cases hf : w.future
  · exact absurd hf h
  · simp [resolveWait, hf]
  · simp [resolveWait, hf]
  · simp [resolveWait, hf]

theorem resolveWait_future_of_pending (evt : Event) (w : Wait) (h : w.future = .pending) :
    (resolveWait evt w).future
      = .result { message := evt.body, sender := evt.sender, room_id := evt.room_id,
                  timestamp := evt.timestamp } := by
  simp [resolveWait, h]

theorem scanPending_length (evt : Event) (ws : List Wait) :
    (scanPending evt ws).length = ws.length := by
  induction ws with
  | nil => rfl
  | cons w ws ih =>
    cases hb : eligible evt w
    · simp [scanPending, hb, ih]
    · simp [scanPending, hb]

theorem scanPending_getElem? (evt : Event) (ws : List Wait) (i : Nat) (w : Wait)
    (hw : ws[i]? = some w) :
    (scanPending evt ws)[i]? = some w ∨
      ((scanPending evt ws)[i]? = some (resolveWait evt w) ∧ eligible evt w = true) := by
  induction ws generalizing i with
  | nil => simp at hw
  | cons x xs ih =>
    cases hb : eligible evt x
    · cases i with
      | zero =>
        simp at hw
        subst hw
        left
        simp [scanPending, hb]
      | succ j =>
        simp at hw
        have := ih j hw
        simpa [scanPending, hb] using this
    · cases i with
      | zero =>
        simp at hw
        subst hw
        right
        exact ⟨by simp [scanPending, hb], hb⟩
      | succ j =>
        left
        simpa [scanPending, hb] using hw

theorem mem_scanPending (evt : Event) (ws : List Wait) (w' : Wait)
    (h : w' ∈ scanPending evt ws) :
    w' ∈ ws ∨ ∃ w ∈ ws, eligible evt w = true ∧ w' = resolveWait evt w := by
  induction ws with
  | nil => simp [scanPending] at h
  | cons x xs ih =>
    cases hb : eligible evt x
    · rw [scanPending, hb] at h
      simp only [Bool.false_eq_true, if_false, List.mem_cons] at h
      rcases h with h | h
      · left; simp [h]
      · rcases ih h with h2 | ⟨w, hw, he, hr⟩
        · left; simp [h2]
        · right; exact ⟨w, by simp [hw], he, hr⟩
    · rw [scanPending, hb] at h
      simp only [if_true, List.mem_cons] at h
      rcases h with h | h
      · right; exact ⟨x, by simp, hb, h⟩
      · left; simp [h]

theorem scanPending_of_none_eligible (evt : Event) (ws : List Wait)
    (h : ∀ w ∈ ws, eligible evt w = false) :
    scanPending evt ws = ws := by
  induction ws with
  | nil => rfl
  | cons x xs ih =>
    have hx : eligible evt x = false := h x (by simp)
    rw [scanPending, hx]
    simp only [Bool.false_eq_true, if_false]
    rw [ih fun w hw => h w (by simp [hw])]

theorem scanPending_append_of_none_eligible (evt : Event) (xs l : List Wait)
    (h : ∀ w ∈ xs, eligible evt w = false) :
    scanPending evt (xs ++ l) = xs ++ scanPending evt l := by
  induction xs with
  | nil => rfl
  | cons x xs ih =>
    have hx : eligible evt x = false := h x (by simp)
    rw [List.cons_append, scanPending, hx]
    simp only [Bool.false_eq_true, if_false]
    rw [ih fun w hw => h w (by simp [hw]), List.cons_append]

theorem timeoutFireFn_fields (fid : String) (w : Wait) :
    (timeoutFireFn fid w).id = w.id ∧ (timeoutFireFn fid w).room_id = w.room_id ∧
    (timeoutFireFn fid w).response_from = w.response_from ∧
    (timeoutFireFn fid w).timeout_seconds = w.timeout_seconds ∧
    (timeoutFireFn fid w).armedAt = w.armedAt ∧
    (w.future ≠ .pending → (timeoutFireFn fid w).future = w.future) ∧
    (timeoutFireFn fid w).inRegistry = w.inRegistry := by
  unfold timeoutFireFn
  split
  · refine ⟨rfl, rfl, rfl, rfl, rfl, ?_, rfl⟩
    intro h
    cases hf : w.future
    · exact absurd hf h
    all_goals simp [hf]
  · exact ⟨rfl, rfl, rfl, rfl, rfl, fun _ => rfl, rfl⟩

theorem waiterCleanupFn_fields (wid : String) (w : Wait) :
    (waiterCleanupFn wid w).id = w.id ∧ (waiterCleanupFn wid w).room_id = w.room_id ∧
    (waiterCleanupFn wid w).response_from = w.response_from ∧
    (waiterCleanupFn wid w).timeout_seconds = w.timeout_seconds ∧
    (waiterCleanupFn wid w).armedAt = w.armedAt ∧
    (waiterCleanupFn wid w).future = w.future ∧
    ((waiterCleanupFn wid w).inRegistry = true → w.inRegistry = true) := by
  unfold waiterCleanupFn
  split
  · exact ⟨rfl, rfl, rfl, rfl, rfl, rfl, by simp⟩
  · exact ⟨rfl, rfl, rfl, rfl, rfl, rfl, fun h => h⟩

theorem waiterCleanupFn_inRegistry_self (wid : String) (w : Wait) (h : w.id = wid) :
    (waiterCleanupFn wid w).inRegistry = false := by
  simp [waiterCleanupFn, h]

theorem cleanupFn_fields (w : Wait) :
    (cleanupFn w).id = w.id ∧ (cleanupFn w).room_id = w.room_id ∧
    (cleanupFn w).response_from = w.response_from ∧
    (cleanupFn w).timeout_seconds = w.timeout_seconds ∧
    (cleanupFn w).armedAt = w.armedAt ∧
    (w.future ≠ .pending → (cleanupFn w).future = w.future) ∧
    (cleanupFn w).inRegistry = false := by
  unfold cleanupFn
  split
  · next hreg =>
    refine ⟨rfl, rfl, rfl, rfl, rfl, ?_, rfl⟩
    intro h
    cases hf : w.future
    · exact absurd hf h
    all_goals simp [hf]
  · next hreg =>
    refine ⟨rfl, rfl, rfl, rfl, rfl, fun _ => rfl, ?_⟩
    simpa using hreg

theorem step_waits_stable (cfg : CallArgs) (bot wid : String) {s s' : Sys}
    (hstep : Step cfg bot wid s s') (i : Nat) (w : Wait) (hw : s.waits[i]? = some w) :
    ∃ w', s'.waits[i]? = some w' ∧ w'.id = w.id ∧ w'.room_id = w.room_id ∧
      w'.response_from = w.response_from ∧ w'.timeout_seconds = w.timeout_seconds ∧
      w'.armedAt = w.armedAt ∧ (w.future ≠ .pending → w'.future = w.future) ∧
      (w'.inRegistry = true → w.inRegistry = true) := by
  cases hstep with
  | sendOk h => exact ⟨w, hw, rfl, rfl, rfl, rfl, rfl, fun _ => rfl, fun h => h⟩
  | sendFail e h => exact ⟨w, hw, rfl, rfl, rfl, rfl, rfl, fun _ => rfl, fun h => h⟩
  | register h hfresh =>
    have hi : i < s.waits.length := by
      rcases List.getElem?_eq_some_iff.mp hw with ⟨hlt, _⟩
      exact hlt
    refine ⟨w, ?_, rfl, rfl, rfl, rfl, rfl, fun _ => rfl, fun h => h⟩
    show (s.waits ++ [mkWait cfg wid s.now])[i]? = some w
    rw [List.getElem?_append_left hi]
    exact hw
  | dispatch evt =>
    show ∃ w', (checkPendingResponses bot evt s.waits)[i]? = some w' ∧ _
    unfold checkPendingResponses
    split
    · exact ⟨w, hw, rfl, rfl, rfl, rfl, rfl, fun _ => rfl, fun h => h⟩
    · rcases scanPending_getElem? evt s.waits i w hw with h1 | ⟨h1, helig⟩
      · exact ⟨w, h1, rfl, rfl, rfl, rfl, rfl, fun _ => rfl, fun h => h⟩
      · exact ⟨resolveWait evt w, h1, resolveWait_id evt w, resolveWait_room_id evt w,
          resolveWait_response_from evt w, resolveWait_timeout_seconds evt w,
          resolveWait_armedAt evt w, resolveWait_future_of_done evt w,
          by rw [resolveWait_inRegistry]; intro h; cases h⟩
  | fire fid wf hwf ht hd =>
    have h1 : (timeoutFireAt fid s.waits)[i]? = some (timeoutFireFn fid w) := by
      rw [timeoutFireAt, List.getElem?_map, hw]; rfl
    obtain ⟨f1, f2, f3, f4, f5, f6, f7⟩ := timeoutFireFn_fields fid w
    exact ⟨timeoutFireFn fid w, h1, f1, f2, f3, f4, f5, f6, fun h => by rw [f7] at h; exact h⟩
  | resumeSuccess wf d h hwf hf =>
    have h1 : (waiterCleanup wid s.waits)[i]? = some (waiterCleanupFn wid w) := by
      rw [waiterCleanup, List.getElem?_map, hw]; rfl
    obtain ⟨f1, f2, f3, f4, f5, f6, f7⟩ := waiterCleanupFn_fields wid w
    exact ⟨waiterCleanupFn wid w, h1, f1, f2, f3, f4, f5, fun _ => f6, f7⟩
  | resumeTimeout wf secs h hwf hf =>
    have h1 : (waiterCleanup wid s.waits)[i]? = some (waiterCleanupFn wid w) := by
      rw [waiterCleanup, List.getElem?_map, hw]; rfl
    obtain ⟨f1, f2, f3, f4, f5, f6, f7⟩ := waiterCleanupFn_fields wid w
    exact ⟨waiterCleanupFn wid w, h1, f1, f2, f3, f4, f5, fun _ => f6, f7⟩
  | resumeCancelled h =>
    have h1 : (waiterCleanup wid s.waits)[i]? = some (waiterCleanupFn wid w) := by
      rw [waiterCleanup, List.getElem?_map, hw]; rfl
    obtain ⟨f1, f2, f3, f4, f5, f6, f7⟩ := waiterCleanupFn_fields wid w
    exact ⟨waiterCleanupFn wid w, h1, f1, f2, f3, f4, f5, fun _ => f6, f7⟩
  | cancelEarly h => exact ⟨w, hw, rfl, rfl, rfl, rfl, rfl, fun _ => rfl, fun h => h⟩
  | shutdown =>
    have h1 : (cleanupAll s.waits)[i]? = some (cleanupFn w) := by
      rw [cleanupAll, List.getElem?_map, hw]; rfl
    obtain ⟨f1, f2, f3, f4, f5, f6, f7⟩ := cleanupFn_fields w
    exact ⟨cleanupFn w, h1, f1, f2, f3, f4, f5, f6, fun h => by rw [f7] at h; cases h⟩
  | tick t h => exact ⟨w, hw, rfl, rfl, rfl, rfl, rfl, fun _ => rfl, fun h => h⟩

theorem getWait_id (wid : String) (ws : List Wait) (w : Wait)
    (h : getWait wid ws = some w) : w.id = wid := by
  have := List.find?_some h
  exact of_decide_eq_true this

theorem getWait_mem (wid : String) (ws : List Wait) (w : Wait)
    (h : getWait wid ws = some w) : w ∈ ws :=
  List.mem_of_find?_eq_some h

/-- Invariant of the event loop, relative to the distinguished call `cfg` and
its registry key `wid`.  All components are scoped to the entry keyed
`wid`, so the invariant holds at any initial state regardless of the waits
of other callers. -/
structure SysInv (cfg : CallArgs) (wid : String) (s : Sys) : Prop where
  preReg : PreRegPhase s.phase → ∀ w ∈ s.waits, w.id ≠ wid
  term : TerminalPhase s.phase → ∀ w ∈ s.waits, w.id = wid → w.inRegistry = false
  tfields : ∀ w ∈ s.waits, w.id = wid →
    w.timeout_seconds = cfg.timeout_seconds ∧ w.armedAt ≤ s.now
  timeoutVal : ∀ w ∈ s.waits, w.id = wid → ∀ x, w.future = .timeoutError x →
    x = cfg.timeout_seconds ∧ w.armedAt + max cfg.timeout_seconds 0 ≤ s.now
  timeoutPhase : ∀ secs, s.phase = .returnedTimeout secs →
    ∃ (i : Nat) (w : Wait), s.waits[i]? = some w ∧ w.id = wid ∧ w.future = .timeoutError secs
  responsePhase : ∀ d, s.phase = .returnedResponse d →
    ∃ (i : Nat) (w : Wait), s.waits[i]? = some w ∧ w.id = wid ∧ w.future = .result d
  sentReg : ∀ w ∈ s.waits, w.id = wid → s.sent = true
  sentPromptSent : s.phase = .sentPrompt → s.sent = true

theorem inv_step (cfg : CallArgs) (bot wid : String) {s s' : Sys}
    (inv : SysInv cfg wid s) (hstep : Step cfg bot wid s s') : SysInv cfg wid s' := by
  cases hstep with
  | sendOk h =>
    refine ⟨?_, ?_, inv.tfields, inv.timeoutVal, ?_, ?_, fun _ _ _ => rfl, fun _ => rfl⟩
    · intro _ w hw
      exact inv.preReg (by rw [h]; trivial) w hw
    · intro ht
      simp [TerminalPhase] at ht
    · intro secs hp
      simp at hp
    · intro d hp
      simp at hp
  | sendFail e h =>
    refine ⟨?_, ?_, inv.tfields, inv.timeoutVal, ?_, ?_, inv.sentReg, ?_⟩
    · intro _ w hw
      exact inv.preReg (by rw [h]; trivial) w hw
    · intro _ w hw hid
      exact absurd hid (inv.preReg (by rw [h]; trivial) w hw)
    · intro secs hp
      simp at hp
    · intro d hp
      simp at hp
    · intro hp
      simp at hp
  | register h hfresh =>
    refine ⟨?_, ?_, ?_, ?_, ?_, ?_, ?_, ?_⟩
    · intro hpre
      simp [PreRegPhase] at hpre
    · intro ht
      simp [TerminalPhase] at ht
    · intro w hw hid
      rcases List.mem_append.mp hw with hold | hnew
      · exact inv.tfields w hold hid
      · simp only [List.mem_singleton] at hnew
        subst hnew
        exact ⟨rfl, le_refl _⟩
    · intro w hw hid x hx
      rcases List.mem_append.mp hw with hold | hnew
      · exact inv.timeoutVal w hold hid x hx
      · simp only [List.mem_singleton] at hnew
        subst hnew
        simp [mkWait] at hx
    · intro secs hp
      simp at hp
    · intro d hp
      simp at hp
    · intro w hw hid
      rcases List.mem_append.mp hw with hold | hnew
      · exact absurd hid (inv.preReg (by rw [h]; trivial) w hold)
      · exact inv.sentPromptSent h
    · intro hp
      simp at hp
  | dispatch evt =>
    have hmem : ∀ w' ∈ checkPendingResponses bot evt s.waits,
        w' ∈ s.waits ∨ ∃ w ∈ s.waits, eligible evt w = true ∧ w' = resolveWait evt w := by
      intro w' hw'
      unfold checkPendingResponses at hw'
      split at hw'
      · exact Or.inl hw'
      · exact mem_scanPending evt s.waits w' hw'
    refine ⟨?_, ?_, ?_, ?_, ?_, ?_, ?_, inv.sentPromptSent⟩
    · intro hpre w' hw'
      rcases hmem w' hw' with hold | ⟨w, hw, _, hres⟩
      · exact inv.preReg hpre w' hold
      · rw [hres, resolveWait_id]
        exact inv.preReg hpre w hw
    · intro ht w' hw' hid
      rcases hmem w' hw' with hold | ⟨w, hw, _, hres⟩
      · exact inv.term ht w' hold hid
      · rw [hres, resolveWait_inRegistry]
    · intro w' hw' hid
      rcases hmem w' hw' with hold | ⟨w, hw, _, hres⟩
      · exact inv.tfields w' hold hid
      · rw [hres, resolveWait_timeout_seconds, resolveWait_armedAt]
        rw [hres, resolveWait_id] at hid
        exact inv.tfields w hw hid
    · intro w' hw' hid x hx
      rcases hmem w' hw' with hold | ⟨w, hw, _, hres⟩
      · exact inv.timeoutVal w' hold hid x hx
      · rw [hres, resolveWait_id] at hid
        rw [hres, resolveWait_armedAt]
        cases hf : w.future with
        | pending =>
          rw [hres, resolveWait_future_of_pending evt w hf] at hx
          cases hx
        | result d =>
          rw [hres, resolveWait_future_of_done evt w (by simp [hf]), hf] at hx
          cases hx
        | timeoutError y =>
          rw [hres, resolveWait_future_of_done evt w (by simp [hf]), hf] at hx
          cases hx
          exact inv.timeoutVal w hw hid x (by rw [hf])
        | cancelled =>
          rw [hres, resolveWait_future_of_done evt w (by simp [hf]), hf] at hx
          cases hx
    · intro secs hp
      rcases inv.timeoutPhase secs hp with ⟨i, w, hw, hid, hf⟩
      rcases step_waits_stable cfg bot wid (Step.dispatch s evt) i w hw with
        ⟨w', hw', hid', _, _, _, _, hfut, _⟩
      exact ⟨i, w', hw', by rw [hid', hid], by rw [hfut (by simp [hf]), hf]⟩
    · intro d hp
      rcases inv.responsePhase d hp with ⟨i, w, hw, hid, hf⟩
      rcases step_waits_stable cfg bot wid (Step.dispatch s evt) i w hw with
        ⟨w', hw', hid', _, _, _, _, hfut, _⟩
      exact ⟨i, w', hw', by rw [hid', hid], by rw [hfut (by simp [hf]), hf]⟩
    · intro w' hw' hid
      rcases hmem w' hw' with hold | ⟨w, hw, _, hres⟩
      · exact inv.sentReg w' hold hid
      · rw [hres, resolveWait_id] at hid
        exact inv.sentReg w hw hid
  | fire fid wf hwf ht hd =>
    refine ⟨?_, ?_, ?_, ?_, ?_, ?_, ?_, inv.sentPromptSent⟩
    · intro hpre w' hw'
      rcases List.mem_map.mp hw' with ⟨w, hw, hres⟩
      rw [← hres, (timeoutFireFn_fields fid w).1]
      exact inv.preReg hpre w hw
    · intro hterm w' hw' hid
      rcases List.mem_map.mp hw' with ⟨w, hw, hres⟩
      rw [← hres, (timeoutFireFn_fields fid w).2.2.2.2.2.2]
      rw [← hres, (timeoutFireFn_fields fid w).1] at hid
      exact inv.term hterm w hw hid
    · intro w' hw' hid
      rcases List.mem_map.mp hw' with ⟨w, hw, hres⟩
      obtain ⟨f1, _, _, f4, f5, _, _⟩ := timeoutFireFn_fields fid w
      rw [← hres] at hid ⊢
      rw [f1] at hid
      rw [f4, f5]
      exact inv.tfields w hw hid
    · intro w' hw' hid x hx
      rcases List.mem_map.mp hw' with ⟨w, hw, hres⟩
      obtain ⟨f1, _, _, f4, f5, _, _⟩ := timeoutFireFn_fields fid w
      rw [← hres] at hid hx ⊢
      rw [f1] at hid
      rw [f5]
      unfold timeoutFireFn at hx
      by_cases hc : w.id = fid ∧ w.timer = .armed
      · rw [if_pos hc] at hx
        cases hf : w.future with
        | pending =>
          simp only [hf] at hx
          cases hx
          have := (inv.tfields w hw hid).1
          refine ⟨this.symm ▸ rfl, ?_⟩
          have hdl := hd w hw hc.1
          unfold fireDeadline at hdl
          rw [(inv.tfields w hw hid).1] at hdl
          exact hdl
        | result d =>
          simp only [hf] at hx
          cases hx
        | timeoutError y =>
          simp only [hf] at hx
          cases hx
          exact inv.timeoutVal w hw hid x (by rw [hf])
        | cancelled =>
          simp only [hf] at hx
          cases hx
      · rw [if_neg hc] at hx
        exact inv.timeoutVal w hw hid x hx
    · intro secs hp
      rcases inv.timeoutPhase secs hp with ⟨i, w, hw, hid, hf⟩
      rcases step_waits_stable cfg bot wid (Step.fire s fid wf hwf ht hd) i w hw with
        ⟨w', hw', hid', _, _, _, _, hfut, _⟩
      exact ⟨i, w', hw', by rw [hid', hid], by rw [hfut (by simp [hf]), hf]⟩
    · intro d hp
      rcases inv.responsePhase d hp with ⟨i, w, hw, hid, hf⟩
      rcases step_waits_stable cfg bot wid (Step.fire s fid wf hwf ht hd) i w hw with
        ⟨w', hw', hid', _, _, _, _, hfut, _⟩
      exact ⟨i, w', hw', by rw [hid', hid], by rw [hfut (by simp [hf]), hf]⟩
    · intro w' hw' hid
      rcases List.mem_map.mp hw' with ⟨w, hw, hres⟩
      rw [← hres, (timeoutFireFn_fields fid w).1] at hid
      exact inv.sentReg w hw hid
  | resumeSuccess wf d h hwf hf =>
    refine ⟨?_, ?_, ?_, ?_, ?_, ?_, ?_, ?_⟩
    · intro hpre
      simp [PreRegPhase] at hpre
    · intro _ w' hw' hid
      rcases List.mem_map.mp hw' with ⟨w, hw, hres⟩
      rw [← hres, (waiterCleanupFn_fields wid w).1] at hid
      rw [← hres]
      exact waiterCleanupFn_inRegistry_self wid w hid
    · intro w' hw' hid
      rcases List.mem_map.mp hw' with ⟨w, hw, hres⟩
      obtain ⟨f1, _, _, f4, f5, _, _⟩ := waiterCleanupFn_fields wid w
      rw [← hres] at hid ⊢
      rw [f1] at hid
      rw [f4, f5]
      exact inv.tfields w hw hid
    · intro w' hw' hid x hx
      rcases List.mem_map.mp hw' with ⟨w, hw, hres⟩
      obtain ⟨f1, _, _, _, f5, f6, _⟩ := waiterCleanupFn_fields wid w
      rw [← hres] at hid hx ⊢
      rw [f1] at hid
      rw [f6] at hx
      rw [f5]
      exact inv.timeoutVal w hw hid x hx
    · intro secs hp
      simp at hp
    · intro d' hp
      simp only [WaiterPhase.returnedResponse.injEq] at hp
      subst hp
      have hid := getWait_id wid s.waits wf hwf
      have hmem := getWait_mem wid s.waits wf hwf
      rcases List.mem_iff_getElem?.mp hmem with ⟨i, hi⟩
      refine ⟨i, waiterCleanupFn wid wf, ?_, ?_, ?_⟩
      · show (waiterCleanup wid s.waits)[i]? = _
        rw [waiterCleanup, List.getElem?_map, hi]
        rfl
      · rw [(waiterCleanupFn_fields wid wf).1, hid]
      · rw [(waiterCleanupFn_fields wid wf).2.2.2.2.2.1, hf]
    · intro w' hw' hid
      rcases List.mem_map.mp hw' with ⟨w, hw, hres⟩
      rw [← hres, (waiterCleanupFn_fields wid w).1] at hid
      exact inv.sentReg w hw hid
    · intro hp
      simp at hp
  | resumeTimeout wf secs h hwf hf =>
    refine ⟨?_, ?_, ?_, ?_, ?_, ?_, ?_, ?_⟩
    · intro hpre
      simp [PreRegPhase] at hpre
    · intro _ w' hw' hid
      rcases List.mem_map.mp hw' with ⟨w, hw, hres⟩
      rw [← hres, (waiterCleanupFn_fields wid w).1] at hid
      rw [← hres]
      exact waiterCleanupFn_inRegistry_self wid w hid
    · intro w' hw' hid
      rcases List.mem_map.mp hw' with ⟨w, hw, hres⟩
      obtain ⟨f1, _, _, f4, f5, _, _⟩ := waiterCleanupFn_fields wid w
      rw [← hres] at hid ⊢
      rw [f1] at hid
      rw [f4, f5]
      exact inv.tfields w hw hid
    · intro w' hw' hid x hx
      rcases List.mem_map.mp hw' with ⟨w, hw, hres⟩
      obtain ⟨f1, _, _, _, f5, f6, _⟩ := waiterCleanupFn_fields wid w
      rw [← hres] at hid hx ⊢
      rw [f1] at hid
      rw [f6] at hx
      rw [f5]
      exact inv.timeoutVal w hw hid x hx
    · intro secs' hp
      simp only [WaiterPhase.returnedTimeout.injEq] at hp
      subst hp
      have hid := getWait_id wid s.waits wf hwf
      have hmem := getWait_mem wid s.waits wf hwf
      rcases List.mem_iff_getElem?.mp hmem with ⟨i, hi⟩
      refine ⟨i, waiterCleanupFn wid wf, ?_, ?_, ?_⟩
      · show (waiterCleanup wid s.waits)[i]? = _
        rw [waiterCleanup, List.getElem?_map, hi]
        rfl
      · rw [(waiterCleanupFn_fields wid wf).1, hid]
      · rw [(waiterCleanupFn_fields wid wf).2.2.2.2.2.1, hf]
    · intro d hp
      simp at hp
    · intro w' hw' hid
      rcases List.mem_map.mp hw' with ⟨w, hw, hres⟩
      rw [← hres, (waiterCleanupFn_fields wid w).1] at hid
      exact inv.sentReg w hw hid
    · intro hp
      simp at hp
  | resumeCancelled h =>
    refine ⟨?_, ?_, ?_, ?_, ?_, ?_, ?_, ?_⟩
    · intro hpre
      simp [PreRegPhase] at hpre
    · intro _ w' hw' hid
      rcases List.mem_map.mp hw' with ⟨w, hw, hres⟩
      rw [← hres, (waiterCleanupFn_fields wid w).1] at hid
      rw [← hres]
      exact waiterCleanupFn_inRegistry_self wid w hid
    · intro w' hw' hid
      rcases List.mem_map.mp hw' with ⟨w, hw, hres⟩
      obtain ⟨f1, _, _, f4, f5, _, _⟩ := waiterCleanupFn_fields wid w
      rw [← hres] at hid ⊢
      rw [f1] at hid
      rw [f4, f5]
      exact inv.tfields w hw hid
    · intro w' hw' hid x hx
      rcases List.mem_map.mp hw' with ⟨w, hw, hres⟩
      obtain ⟨f1, _, _, _, f5, f6, _⟩ := waiterCleanupFn_fields wid w
      rw [← hres] at hid hx ⊢
      rw [f1] at hid
      rw [f6] at hx
      rw [f5]
      exact inv.timeoutVal w hw hid x hx
    · intro secs hp
      simp at hp
    · intro d hp
      simp at hp
    · intro w' hw' hid
      rcases List.mem_map.mp hw' with ⟨w, hw, hres⟩
      rw [← hres, (waiterCleanupFn_fields wid w).1] at hid
      exact inv.sentReg w hw hid
    · intro hp
      simp at hp
  | cancelEarly h =>
    refine ⟨?_, ?_, inv.tfields, inv.timeoutVal, ?_, ?_, inv.sentReg, ?_⟩
    · intro hpre
      simp [PreRegPhase] at hpre
    · intro _ w hw hid
      rcases h with h | h
      · exact absurd hid (inv.preReg (by rw [h]; trivial) w hw)
      · exact absurd hid (inv.preReg (by rw [h]; trivial) w hw)
    · intro secs hp
      simp at hp
    · intro d hp
      simp at hp
    · intro hp
      simp at hp
  | shutdown =>
    refine ⟨?_, ?_, ?_, ?_, ?_, ?_, ?_, inv.sentPromptSent⟩
    · intro hpre w' hw'
      rcases List.mem_map.mp hw' with ⟨w, hw, hres⟩
      rw [← hres, (cleanupFn_fields w).1]
      exact inv.preReg hpre w hw
    · intro _ w' hw' _
      rcases List.mem_map.mp hw' with ⟨w, hw, hres⟩
      rw [← hres, (cleanupFn_fields w).2.2.2.2.2.2]
    · intro w' hw' hid
      rcases List.mem_map.mp hw' with ⟨w, hw, hres⟩
      obtain ⟨f1, _, _, f4, f5, _, _⟩ := cleanupFn_fields w
      rw [← hres] at hid ⊢
      rw [f1] at hid
      rw [f4, f5]
      exact inv.tfields w hw hid
    · intro w' hw' hid x hx
      rcases List.mem_map.mp hw' with ⟨w, hw, hres⟩
      obtain ⟨f1, _, _, _, f5, _, _⟩ := cleanupFn_fields w
      rw [← hres] at hid hx ⊢
      rw [f1] at hid
      rw [f5]
      unfold cleanupFn at hx
      by_cases hc : w.inRegistry = true
      · rw [if_pos hc] at hx
        cases hf : w.future with
        | pending =>
          simp only [hf] at hx
          cases hx
        | result d =>
          simp only [hf] at hx
          cases hx
        | timeoutError y =>
          simp only [hf] at hx
          cases hx
          exact inv.timeoutVal w hw hid x (by rw [hf])
        | cancelled =>
          simp only [hf] at hx
          cases hx
      · rw [if_neg hc] at hx
        exact inv.timeoutVal w hw hid x hx
    · intro secs hp
      rcases inv.timeoutPhase secs hp with ⟨i, w, hw, hid, hf⟩
      rcases step_waits_stable cfg bot wid (Step.shutdown s) i w hw with
        ⟨w', hw', hid', _, _, _, _, hfut, _⟩
      exact ⟨i, w', hw', by rw [hid', hid], by rw [hfut (by simp [hf]), hf]⟩
    · intro d hp
      rcases inv.responsePhase d hp with ⟨i, w, hw, hid, hf⟩
      rcases step_waits_stable cfg bot wid (Step.shutdown s) i w hw with
        ⟨w', hw', hid', _, _, _, _, hfut, _⟩
      exact ⟨i, w', hw', by rw [hid', hid], by rw [hfut (by simp [hf]), hf]⟩
    · intro w' hw' hid
      rcases List.mem_map.mp hw' with ⟨w, hw, hres⟩
      rw [← hres, (cleanupFn_fields w).1] at hid
      exact inv.sentReg w hw hid
  | tick t h =>
    refine ⟨inv.preReg, inv.term, ?_, ?_, inv.timeoutPhase, inv.responsePhase,
      inv.sentReg, inv.sentPromptSent⟩
    · intro w hw hid
      obtain ⟨h1, h2⟩ := inv.tfields w hw hid
      exact ⟨h1, le_trans h2 h⟩
    · intro w hw hid x hx
      obtain ⟨h1, h2⟩ := inv.timeoutVal w hw hid x hx
      exact ⟨h1, le_trans h2 h⟩

theorem inv_init (cfg : CallArgs) (wid : String) (s : Sys) (h : Init wid s) :
    SysInv cfg wid s := by
  obtain ⟨hp, hs, hw⟩ := h
  refine ⟨?_, ?_, ?_, ?_, ?_, ?_, ?_, ?_⟩
  · intro _ w hmem
    exact hw w hmem
  · intro ht
    rw [hp] at ht
    simp [TerminalPhase] at ht
  · intro w hmem hid
    exact absurd hid (hw w hmem)
  · intro w hmem hid
    exact absurd hid (hw w hmem)
  · intro secs hsec
    rw [hp] at hsec
    simp at hsec
  · intro d hd
    rw [hp] at hd
    simp at hd
  · intro w hmem hid
    exact absurd hid (hw w hmem)
  · intro hsp
    rw [hp] at hsp
    simp at hsp

theorem inv_reachable (cfg : CallArgs) (bot wid : String) (s0 s : Sys)
    (h0 : Init wid s0) (hr : Reachable cfg bot wid s0 s) : SysInv cfg wid s := by
  induction hr with
  | refl => exact inv_init cfg wid s0 h0
  | tail hab hbc ih => exact inv_step cfg bot wid ih hbc

theorem eligible_false_of (evt : Event) (w : Wait)
    (h : w.inRegistry = false ∨ evt.room_id ≠ w.room_id
         ∨ ∃ s, w.response_from = some s ∧ s ≠ "" ∧ evt.sender ≠ s) :
    eligible evt w = false := by
  unfold eligible blockedByFilter truthyFrom
  rcases h with h | h | ⟨s, hs, hne, hse⟩
  · simp [h]
  · simp [h]
  · rw [hs]
    simp [hne, hse]

/-- C2: for an event not authored by the bot, the dispatcher walks the
registry in first-registered order; every earlier entry that is ineligible is
skipped unchanged; the first eligible pending entry receives the success
outcome built from the event, its timer is cancelled, it leaves the registry,
and the scan stops, leaving every later entry (in particular a second
filterless wait in the same room) untouched and pending. -/
theorem dispatch_first_registered_wins (bot : String) (evt : Event)
    (xs : List Wait) (w : Wait) (ys : List Wait)
    (hbot : evt.sender ≠ bot)
    (hxs : ∀ x ∈ xs, eligible evt x = false)
    (hw : eligible evt w = true)
    (hpend : w.future = .pending)
    (harm : w.timer = .armed) :
    checkPendingResponses bot evt (xs ++ w :: ys)
      = xs ++ { w with
          future := .result { message := evt.body, sender := evt.sender,
                              room_id := evt.room_id, timestamp := evt.timestamp },
          timer := .cancelled,
          inRegistry := false } :: ys := by
  unfold checkPendingResponses
  rw [if_neg hbot, scanPending_append_of_none_eligible evt xs _ hxs, scanPending, hw]
  simp only [if_true]
  rw [resolveWait, hpend, harm]

/-- Witness for C2: two filterless pending waits in the same room, `W1`
registered before `W2`; a single event from a human resolves `W1` only, and
`W2` stays pending and unmodified. -/
theorem dispatch_first_registered_wins_witness :
    checkPendingResponses "@bot:hs"
        { room_id := "!room:hs", sender := "@alice:hs", body := "wisdom please",
          timestamp := 5 }
        [{ id := "!room:hs:1000", room_id := "!room:hs", response_from := none,
           future := .pending, timer := .armed, inRegistry := true,
           timeout_seconds := 60, armedAt := 0 },
         { id := "!room:hs:1001", room_id := "!room:hs", response_from := none,
           future := .pending, timer := .armed, inRegistry := true,
           timeout_seconds := 60, armedAt := 1 }]
      = [{ id := "!room:hs:1000", room_id := "!room:hs", response_from := none,
           future := .result { message := "wisdom please", sender := "@alice:hs",
                               room_id := "!room:hs", timestamp := 5 },
           timer := .cancelled, inRegistry := false,
           timeout_seconds := 60, armedAt := 0 },
         { id := "!room:hs:1001", room_id := "!room:hs", response_from := none,
           future := .pending, timer := .armed, inRegistry := true,
           timeout_seconds := 60, armedAt := 1 }] :=
  dispatch_first_registered_wins "@bot:hs"
    { room_id := "!room:hs", sender := "@alice:hs", body := "wisdom please",
      timestamp := 5 }
    []
    { id := "!room:hs:1000", room_id := "!room:hs", response_from := none,
      future := .pending, timer := .armed, inRegistry := true,
      timeout_seconds := 60, armedAt := 0 }
    [{ id := "!room:hs:1001", room_id := "!room:hs", response_from := none,
       future := .pending, timer := .armed, inRegistry := true,
       timeout_seconds := 60, armedAt := 1 }]
    (by decide) (by simp) (by decide) (by decide) (by decide)

/-- C10: when the first room- and sender-eligible entry the dispatcher finds
already has a resolved outcome slot, the dispatcher still runs the match
body on it — the guarded timer cancellation (a no-op on an already-done
task), the registry deletion, and the `break` — so the outcome slot keeps
its old value, every later entry is untouched, and the event resolves no
wait at all even when a later-registered eligible pending wait exists. -/
theorem dispatch_done_future_consumes_event (bot : String) (evt : Event)
    (xs : List Wait) (w : Wait) (ys : List Wait)
    (hbot : evt.sender ≠ bot)
    (hxs : ∀ x ∈ xs, eligible evt x = false)
    (hw : eligible evt w = true)
    (hdone : w.future ≠ .pending) :
    checkPendingResponses bot evt (xs ++ w :: ys)
      = xs ++ { w with
          timer := match w.timer with
            | .armed => .cancelled
            | t => t,
          inRegistry := false } :: ys := by
  unfold checkPendingResponses
  rw [if_neg hbot, scanPending_append_of_none_eligible evt xs _ hxs, scanPending, hw]
  simp only [if_true]
  have : resolveWait evt w
      = { w with
          timer := match w.timer with
            | .armed => .cancelled
            | t => t,
          inRegistry := false } := by
    unfold resolveWait
    cases hf : w.future
    · exact absurd hf hdone
    · rfl
    · rfl
    · rfl
  rw [this]

/-- Witness for C10: the first eligible wait already holds a timeout outcome
(its timer has fired but the waiter has not yet cleaned it up); the event
removes that entry without resolving it, and a later pending eligible wait in
the same room is left untouched. -/
theorem dispatch_done_future_consumes_event_witness :
    checkPendingResponses "@bot:hs"
        { room_id := "!room:hs", sender := "@alice:hs", body := "hello",
          timestamp := 9 }
        [{ id := "!room:hs:1000", room_id := "!room:hs", response_from := none,
           future := .timeoutError 60, timer := .fired, inRegistry := true,
           timeout_seconds := 60, armedAt := 0 },
         { id := "!room:hs:1001", room_id := "!room:hs", response_from := none,
           future := .pending, timer := .armed, inRegistry := true,
           timeout_seconds := 60, armedAt := 1 }]
      = [{ id := "!room:hs:1000", room_id := "!room:hs", response_from := none,
           future := .timeoutError 60, timer := .fired, inRegistry := false,
           timeout_seconds := 60, armedAt := 0 },
         { id := "!room:hs:1001", room_id := "!room:hs", response_from := none,
           future := .pending, timer := .armed, inRegistry := true,
           timeout_seconds := 60, armedAt := 1 }] :=
  dispatch_done_future_consumes_event "@bot:hs"
    { room_id := "!room:hs", sender := "@alice:hs", body := "hello", timestamp := 9 }
    []
    { id := "!room:hs:1000", room_id := "!room:hs", response_from := none,
      future := .timeoutError 60, timer := .fired, inRegistry := true,
      timeout_seconds := 60, armedAt := 0 }
    [{ id := "!room:hs:1001", room_id := "!room:hs", response_from := none,
       future := .pending, timer := .armed, inRegistry := true,
       timeout_seconds := 60, armedAt := 1 }]
    (by decide) (by simp) (by decide) (by decide)

/-- C5 counterexample: a wait whose `response_from` filter is set — to the
empty string — is nonetheless resolved by an event from `@alice:hs`, a sender
different from the filter value, because the truthiness test at source line
175 treats an empty-string filter like an absent one.  The claim that a set
filter admits only events from exactly that sender is false at this input. -/
theorem empty_filter_resolves_cex :
    ((checkPendingResponses "@bot:hs"
        { room_id := "!room:hs", sender := "@alice:hs", body := "hi", timestamp := 7 }
        [{ id := "!room:hs:1000", room_id := "!room:hs", response_from := some "",
           future := .pending, timer := .armed, inRegistry := true,
           timeout_seconds := 60, armedAt := 0 }]).map Wait.future
      = [.result { message := "hi", sender := "@alice:hs", room_id := "!room:hs",
                   timestamp := 7 }])
    ∧ (some "" : Option String) ≠ none
    ∧ ("@alice:hs" : String) ≠ "" := by
  refine ⟨by decide, by decide, by decide⟩

/-- C5 (amended): an event can resolve a wait only if the event is not
self-authored, the wait is in the registry, the rooms agree, and any
non-empty sender filter equals the sender of the event; a wait with an unset — or
empty-string — filter admits any sender other than the bot.  Contrapositive,
positional form: an entry survives the dispatcher unchanged whenever the
event is authored by the bot itself, or the entry is not registered, or the rooms differ,
or a non-empty filter differs from the sender of the event; in particular a
self-authored event leaves every entry, and hence the whole registry,
unchanged. -/
theorem dispatch_sender_room_filter_rules (bot : String) (evt : Event)
    (ws : List Wait) (i : Nat) (w : Wait) (hw : ws[i]? = some w)
    (h : evt.sender = bot ∨ w.inRegistry = false ∨ evt.room_id ≠ w.room_id
         ∨ ∃ s, w.response_from = some s ∧ s ≠ "" ∧ evt.sender ≠ s) :
    (checkPendingResponses bot evt ws)[i]? = some w := by
  unfold checkPendingResponses
  rcases h with h | h
  · rw [if_pos h]
    exact hw
  · by_cases hbot : evt.sender = bot
    · rw [if_pos hbot]
      exact hw
    · rw [if_neg hbot]
      have he := eligible_false_of evt w h
      rcases scanPending_getElem? evt ws i w hw with h1 | ⟨h1, helig⟩
      · exact h1
      · rw [helig] at he
        cases he

/-- Witness for C5 (amended): a wait filtered on `@carol:hs` is left exactly
in place by an event from `@alice:hs` in the same room. -/
theorem dispatch_sender_room_filter_rules_witness :
    (checkPendingResponses "@bot:hs"
        { room_id := "!room:hs", sender := "@alice:hs", body := "hi", timestamp := 7 }
        [{ id := "!room:hs:1000", room_id := "!room:hs",
           response_from := some "@carol:hs",
           future := .pending, timer := .armed, inRegistry := true,
           timeout_seconds := 60, armedAt := 0 }])[0]?
      = some { id := "!room:hs:1000", room_id := "!room:hs",
               response_from := some "@carol:hs",
               future := .pending, timer := .armed, inRegistry := true,
               timeout_seconds := 60, armedAt := 0 } :=
  dispatch_sender_room_filter_rules "@bot:hs"
    { room_id := "!room:hs", sender := "@alice:hs", body := "hi", timestamp := 7 }
    [{ id := "!room:hs:1000", room_id := "!room:hs", response_from := some "@carol:hs",
       future := .pending, timer := .armed, inRegistry := true,
       timeout_seconds := 60, armedAt := 0 }]
    0
    { id := "!room:hs:1000", room_id := "!room:hs", response_from := some "@carol:hs",
      future := .pending, timer := .armed, inRegistry := true,
      timeout_seconds := 60, armedAt := 0 }
    (by decide)
    (Or.inr (Or.inr (Or.inr ⟨"@carol:hs", rfl, by decide, by decide⟩)))

/-- C3 counterexample: a pending, armed, registered wait whose timer expires
receives the timeout outcome, but its entry is still in the registry after
the expiry step — the removal the claim requires in the same step does not
happen there (it happens only later, in the `finally` block of the waiter at lines
289-294). -/
theorem timeout_expiry_leaves_entry_cex :
    ((timeoutFireAt "!room:hs:1000"
        [{ id := "!room:hs:1000", room_id := "!room:hs", response_from := none,
           future := .pending, timer := .armed, inRegistry := true,
           timeout_seconds := 60, armedAt := 0 }]).map Wait.future
      = [.timeoutError 60])
    ∧ ((timeoutFireAt "!room:hs:1000"
        [{ id := "!room:hs:1000", room_id := "!room:hs", response_from := none,
           future := .pending, timer := .armed, inRegistry := true,
           timeout_seconds := 60, armedAt := 0 }]).map Wait.inRegistry
      = [true]) := by
  refine ⟨by decide, by decide⟩

/-- C3 (amended): when the timeout of a wait expires, the expiry step is still
atomic with respect to the outcome slot — if the slot is unresolved it
receives the timeout outcome and the timer is spent, and if the slot is
already resolved the expiry leaves it unchanged — but the entry is NOT
removed from the registry in that step: registry membership of every wait is
unchanged by the expiry, and the timed-out entry lingers until the `finally`
cleanup of the waiter (or a later matching event) removes it. -/
theorem timeout_expiry_no_removal (fid : String) (ws : List Wait) (i : Nat) (w : Wait)
    (hw : ws[i]? = some w) :
    ((timeoutFireAt fid ws)[i]? = some (timeoutFireFn fid w))
    ∧ ((timeoutFireFn fid w).inRegistry = w.inRegistry)
    ∧ (w.future ≠ .pending → (timeoutFireFn fid w).future = w.future)
    ∧ (w.id = fid → w.timer = .armed → w.future = .pending →
        timeoutFireFn fid w
          = { w with future := .timeoutError w.timeout_seconds, timer := .fired }) := by
  refine ⟨?_, (timeoutFireFn_fields fid w).2.2.2.2.2.2,
    (timeoutFireFn_fields fid w).2.2.2.2.2.1, ?_⟩
  · rw [timeoutFireAt, List.getElem?_map, hw]
    rfl
  · intro hid harm hpend
    unfold timeoutFireFn
    rw [if_pos ⟨hid, harm⟩, hpend]

/-- Witness for C3 (amended): evaluated at the concrete pending armed wait. -/
theorem timeout_expiry_no_removal_witness :
    ((timeoutFireAt "!room:hs:1000"
        [{ id := "!room:hs:1000", room_id := "!room:hs", response_from := none,
           future := .pending, timer := .armed, inRegistry := true,
           timeout_seconds := 60, armedAt := 0 }])[0]?
      = some (timeoutFireFn "!room:hs:1000"
          { id := "!room:hs:1000", room_id := "!room:hs", response_from := none,
            future := .pending, timer := .armed, inRegistry := true,
            timeout_seconds := 60, armedAt := 0 }))
    ∧ ((timeoutFireFn "!room:hs:1000"
          { id := "!room:hs:1000", room_id := "!room:hs", response_from := none,
            future := .pending, timer := .armed, inRegistry := true,
            timeout_seconds := 60, armedAt := 0 }).inRegistry = true)
    ∧ ((FutureState.pending : FutureState) ≠ .pending →
        (timeoutFireFn "!room:hs:1000"
          { id := "!room:hs:1000", room_id := "!room:hs", response_from := none,
            future := .pending, timer := .armed, inRegistry := true,
            timeout_seconds := 60, armedAt := 0 }).future = .pending)
    ∧ (("!room:hs:1000" : String) = "!room:hs:1000" →
        (TimerState.armed : TimerState) = .armed →
        (FutureState.pending : FutureState) = .pending →
        timeoutFireFn "!room:hs:1000"
          { id := "!room:hs:1000", room_id := "!room:hs", response_from := none,
            future := .pending, timer := .armed, inRegistry := true,
            timeout_seconds := 60, armedAt := 0 }
          = { id := "!room:hs:1000", room_id := "!room:hs", response_from := none,
              future := .timeoutError 60, timer := .fired, inRegistry := true,
              timeout_seconds := 60, armedAt := 0 }) :=
  timeout_expiry_no_removal "!room:hs:1000"
    [{ id := "!room:hs:1000", room_id := "!room:hs", response_from := none,
       future := .pending, timer := .armed, inRegistry := true,
       timeout_seconds := 60, armedAt := 0 }]
    0
    { id := "!room:hs:1000", room_id := "!room:hs", response_from := none,
      future := .pending, timer := .armed, inRegistry := true,
      timeout_seconds := 60, armedAt := 0 }
    (by decide)

/-- C9 counterexample: two distinct registrations (carrying different wait
states) in the same room that observe the same event-loop clock reading are
given the very same key by `mkResponseId`, and the dict assignment of the
second overwrites the entry of the first registration — the registry afterwards
holds only the second.  Identifier uniqueness, and the guarantee that one
registration never overwrites the entry of another, fail at this input. -/
theorem response_id_collision_overwrites_cex :
    mkResponseId "!room:hs" 1000 = mkResponseId "!room:hs" 1000
    ∧ (dictAssign (mkResponseId "!room:hs" 1000) (2 : Nat)
         (dictAssign (mkResponseId "!room:hs" 1000) (1 : Nat) [])
       = [(mkResponseId "!room:hs" 1000, 2)])
    ∧ (1 : Nat) ≠ 2 := by
  refine ⟨rfl, by decide, by decide⟩

/-- C9 (amended): the registry key is `room:clockReading` and is NOT
guaranteed unique — a registration whose room and clock reading repeat those
of an existing entry produces the same key and overwrites that entry in
place — but a registration whose generated key differs from every key in the
registry appends a fresh entry and leaves every existing entry unchanged. -/
theorem registration_id_behavior {α : Type} (room : String) (t : Nat) (v : α)
    (d : List (String × α)) :
    ((∀ p ∈ d, p.1 ≠ mkResponseId room t) →
      dictAssign (mkResponseId room t) v d = d ++ [(mkResponseId room t, v)])
    ∧ (∀ pre v0 post, (∀ p ∈ pre, p.1 ≠ mkResponseId room t) →
        dictAssign (mkResponseId room t) v
            (pre ++ (mkResponseId room t, v0) :: post)
          = pre ++ (mkResponseId room t, v) :: post) := by
  constructor
  · intro hfresh
    induction d with
    | nil => rfl
    | cons p rest ih =>
      rw [List.cons_append]
      show dictAssign (mkResponseId room t) v (p :: rest) = _
      obtain ⟨k', v'⟩ := p
      rw [dictAssign, if_neg (by exact fun hh => hfresh (k', v') (by simp) hh)]
      rw [ih fun q hq => hfresh q (by simp [hq])]
  · intro pre v0 post hpre
    induction pre with
    | nil =>
      show dictAssign (mkResponseId room t) v ((mkResponseId room t, v0) :: post) = _
      rw [dictAssign, if_pos rfl]
      rfl
    | cons p rest ih =>
      rw [List.cons_append]
      obtain ⟨k', v'⟩ := p
      rw [dictAssign, if_neg (by exact fun hh => hpre (k', v') (by simp) hh)]
      rw [ih fun q hq => hpre q (by simp [hq]), List.cons_append]

/-- Witness for C9 (amended): a second registration at a later clock reading
gets a different key here and appends; a colliding key overwrites in place. -/
theorem registration_id_behavior_witness :
    ((∀ p ∈ [(mkResponseId "!room:hs" 1000, (1 : Nat))],
        p.1 ≠ mkResponseId "!room:hs" 1001) →
      dictAssign (mkResponseId "!room:hs" 1001) (2 : Nat)
          [(mkResponseId "!room:hs" 1000, 1)]
        = [(mkResponseId "!room:hs" 1000, 1)] ++ [(mkResponseId "!room:hs" 1001, 2)])
    ∧ (∀ pre v0 post, (∀ p ∈ pre, p.1 ≠ mkResponseId "!room:hs" 1001) →
        dictAssign (mkResponseId "!room:hs" 1001) (2 : Nat)
            (pre ++ (mkResponseId "!room:hs" 1001, v0) :: post)
          = pre ++ (mkResponseId "!room:hs" 1001, 2) :: post) :=
  registration_id_behavior "!room:hs" 1001 (2 : Nat)
    [(mkResponseId "!room:hs" 1000, 1)]

/-- C8 counterexample: the text handed back to the caller of the
send-then-wait call (source lines 279-282) is built from the matched sender
and body only; two matched results that differ in room and in timestamp
produce the identical returned text, so the returned result does not contain
the room or the timestamp. -/
theorem success_text_drops_room_timestamp_cex :
    successText { message := "hi", sender := "@alice:hs", room_id := "!room1:hs",
                  timestamp := 100 }
      = successText { message := "hi", sender := "@alice:hs", room_id := "!room2:hs",
                      timestamp := 200 }
    ∧ ("!room1:hs" : String) ≠ "!room2:hs"
    ∧ (100 : Nat) ≠ 200 := by
  refine ⟨rfl, by decide, by decide⟩

theorem initA0 : Init widA sysA0 := by
  refine ⟨rfl, rfl, ?_⟩
  intro w hw
  simp [sysA0] at hw

theorem stepA01 : Step cfgA botA widA sysA0 sysA1 := Step.sendOk sysA0 rfl

theorem stepA12 : Step cfgA botA widA sysA1 sysA2 := by
  refine Step.register sysA1 rfl ?_
  intro w hw
  simp [sysA1, sysA0] at hw

theorem stepA23 : Step cfgA botA widA sysA2 sysA3 := Step.tick sysA2 60 (by decide)

theorem stepA34 : Step cfgA botA widA sysA3 sysA4 :=
  Step.fire sysA3 widA (mkWait cfgA widA 0) (by decide) (by decide) (by decide)

theorem stepA45 : Step cfgA botA widA sysA4 sysA5 :=
  Step.resumeTimeout sysA4 (timeoutFireFn widA (mkWait cfgA widA 0)) 60 rfl
    (by decide) (by decide)

theorem reachA5 : Reachable cfgA botA widA sysA0 sysA5 :=
  Relation.ReflTransGen.tail (Relation.ReflTransGen.tail (Relation.ReflTransGen.tail
    (Relation.ReflTransGen.tail (Relation.ReflTransGen.tail Relation.ReflTransGen.refl
      stepA01) stepA12) stepA23) stepA34) stepA45

theorem stepB23 : Step cfgA botA widA sysA2 sysB3 := Step.dispatch sysA2 evtB

theorem stepB34 : Step cfgA botA widA sysB3 sysB4 :=
  Step.resumeSuccess sysB3 (resolveWait evtB (mkWait cfgA widA 0)) dB rfl
    (by decide) (by decide)

theorem reachB4 : Reachable cfgA botA widA sysA0 sysB4 :=
  Relation.ReflTransGen.tail (Relation.ReflTransGen.tail (Relation.ReflTransGen.tail
    (Relation.ReflTransGen.tail Relation.ReflTransGen.refl stepA01) stepA12)
      stepB23) stepB34

theorem stepF01 : Step cfgA botA widA sysA0 sysF1 :=
  Step.sendFail sysA0 "send rejected" rfl

theorem reachF1 : Reachable cfgA botA widA sysA0 sysF1 :=
  Relation.ReflTransGen.tail Relation.ReflTransGen.refl stepF01

theorem stepN01 : Step cfgN botA widA sysA0 sysN1 := Step.sendOk sysA0 rfl

theorem stepN12 : Step cfgN botA widA sysN1 sysN2 := by
  refine Step.register sysN1 rfl ?_
  intro w hw
  simp [sysN1, sysA0] at hw

theorem reachN2 : Reachable cfgN botA widA sysA0 sysN2 :=
  Relation.ReflTransGen.tail (Relation.ReflTransGen.tail Relation.ReflTransGen.refl
    stepN01) stepN12

theorem stepN23 : Step cfgN botA widA sysN2 sysN3 :=
  Step.fire sysN2 widA (mkWait cfgN widA 0) (by decide) (by decide) (by decide)

theorem stepN34 : Step cfgN botA widA sysN3 sysN4 :=
  Step.resumeTimeout sysN3 (timeoutFireFn widA (mkWait cfgN widA 0)) (-5) rfl
    (by decide) (by decide)

theorem reachN4 : Reachable cfgN botA widA sysA0 sysN4 :=
  Relation.ReflTransGen.tail (Relation.ReflTransGen.tail reachN2 stepN23) stepN34

/-- C1: for the distinguished registered wait, at most one terminal outcome
ever occurs — once its outcome slot has left `pending`, no step of the event
loop (match, timer expiry, waiter cleanup, shutdown) ever changes it again —
and on every exit path of the send-then-wait call (success return, timeout
return, send failure, caller cancellation after shutdown or otherwise) the
terminal state of the call has no registry entry for the wait. -/
theorem wait_single_resolution_and_no_leak (cfg : CallArgs) (bot wid : String)
    (s0 s : Sys) (h0 : Init wid s0) (hr : Reachable cfg bot wid s0 s) :
    (TerminalPhase s.phase → ∀ w ∈ s.waits, w.id = wid → w.inRegistry = false)
    ∧ (∀ s', Step cfg bot wid s s' → ∀ (i : Nat) (w : Wait), s.waits[i]? = some w →
        w.future ≠ .pending →
        ∃ w', s'.waits[i]? = some w' ∧ w'.future = w.future ∧ w'.id = w.id) := by
  constructor
  · exact (inv_reachable cfg bot wid s0 s h0 hr).term
  · intro s' hstep i w hw hdone
    rcases step_waits_stable cfg bot wid hstep i w hw with
      ⟨w', hw', hid', _, _, _, _, hfut, _⟩
    exact ⟨w', hw', hfut hdone, hid'⟩

/-- Witness for C1: evaluated at the end of the concrete timeout run. -/
theorem wait_single_resolution_and_no_leak_witness :
    (TerminalPhase sysA5.phase → ∀ w ∈ sysA5.waits, w.id = widA → w.inRegistry = false)
    ∧ (∀ s', Step cfgA botA widA sysA5 s' → ∀ (i : Nat) (w : Wait),
        sysA5.waits[i]? = some w → w.future ≠ .pending →
        ∃ w', s'.waits[i]? = some w' ∧ w'.future = w.future ∧ w'.id = w.id) :=
  wait_single_resolution_and_no_leak cfgA botA widA sysA0 sysA5 initA0 reachA5

/-- C4: whenever the send-then-wait call finishes in a timeout outcome, that
outcome is a returned structured text (the call returns it, it does not raise)
carrying the configured duration; the outcome slot of the wait holds the timeout
outcome and was written no earlier than the registration time plus the
(clamped at zero) timeout duration; and the registry holds no entry for the
wait afterwards. -/
theorem timeout_outcome_structured (cfg : CallArgs) (bot wid : String)
    (s0 s : Sys) (secs : Int)
    (h0 : Init wid s0) (hr : Reachable cfg bot wid s0 s)
    (hp : s.phase = .returnedTimeout secs) :
    secs = cfg.timeout_seconds
    ∧ returnText s.phase = some (timeoutText cfg.timeout_seconds)
    ∧ (∃ (i : Nat) (w : Wait), s.waits[i]? = some w ∧ w.id = wid
        ∧ w.future = .timeoutError cfg.timeout_seconds
        ∧ w.armedAt + max cfg.timeout_seconds 0 ≤ s.now
        ∧ w.inRegistry = false) := by
  have inv := inv_reachable cfg bot wid s0 s h0 hr
  rcases inv.timeoutPhase secs hp with ⟨i, w, hw, hid, hf⟩
  have hmem : w ∈ s.waits := List.getElem?_mem hw
  obtain ⟨hsecs, hdl⟩ := inv.timeoutVal w hmem hid secs hf
  subst hsecs
  refine ⟨rfl, by rw [hp]; rfl, i, w, hw, hid, hf, hdl, ?_⟩
  exact inv.term (by rw [hp]; trivial) w hmem hid

/-- Witness for C4: evaluated at the end of the concrete timeout run. -/
theorem timeout_outcome_structured_witness :
    (60 : Int) = cfgA.timeout_seconds
    ∧ returnText sysA5.phase = some (timeoutText cfgA.timeout_seconds)
    ∧ (∃ (i : Nat) (w : Wait), sysA5.waits[i]? = some w ∧ w.id = widA
        ∧ w.future = .timeoutError cfgA.timeout_seconds
        ∧ w.armedAt + max cfgA.timeout_seconds 0 ≤ sysA5.now
        ∧ w.inRegistry = false) :=
  timeout_outcome_structured cfgA botA widA sysA0 sysA5 60 initA0 reachA5 rfl

/-- C6: the prompt send happens before the wait is registered — in every
reachable state, the presence of the registry key of the call implies the prompt
send has completed — and if the send fails, the call raises the send failure
and no wait keyed by the call was ever registered (hence no timer for it
was ever armed). -/
theorem send_failure_no_registration (cfg : CallArgs) (bot wid : String)
    (s0 s : Sys) (h0 : Init wid s0) (hr : Reachable cfg bot wid s0 s) :
    (∀ w ∈ s.waits, w.id = wid → s.sent = true)
    ∧ (∀ e, s.phase = .raisedSendError e → ∀ w ∈ s.waits, w.id ≠ wid) := by
  have inv := inv_reachable cfg bot wid s0 s h0 hr
  refine ⟨inv.sentReg, ?_⟩
  intro e hp w hw
  exact inv.preReg (by rw [hp]; trivial) w hw

/-- Witness for C6: evaluated at the concrete failed-send run. -/
theorem send_failure_no_registration_witness :
    (∀ w ∈ sysF1.waits, w.id = widA → sysF1.sent = true)
    ∧ (∀ e, sysF1.phase = .raisedSendError e → ∀ w ∈ sysF1.waits, w.id ≠ widA) :=
  send_failure_no_registration cfgA botA widA sysA0 sysF1 initA0 reachF1

/-- C7 counterexample: with `timeout_seconds = -5` the call does not fail
fast and is not free of side effects — the source never validates the
timeout.  A full run is exhibited in which the prompt is sent, the wait is
registered with its timer armed while the call is suspended, and the call
then returns a timeout outcome carrying the non-positive duration instead of
an error. -/
theorem nonpositive_timeout_accepted_cex :
    cfgN.timeout_seconds ≤ 0
    ∧ Reachable cfgN botA widA sysA0 sysN2
    ∧ sysN2.sent = true
    ∧ getWait widA sysN2.waits = some (mkWait cfgN widA 0)
    ∧ (mkWait cfgN widA 0).timer = .armed
    ∧ sysN2.phase = .waiting
    ∧ Reachable cfgN botA widA sysA0 sysN4
    ∧ sysN4.phase = .returnedTimeout (-5) := by
  exact ⟨by decide, reachN2, rfl, by decide, rfl, rfl, reachN4, rfl⟩

/-- C7 (amended): a call with a non-positive timeout duration is not rejected
and proceeds with its usual side effects (prompt sent, wait registered, timer
armed); because `asyncio.sleep` of a non-positive duration returns
immediately, in any reachable state in which the wait is registered with its
timer still armed the timeout firing step is already enabled, so the call
yields a timeout outcome carrying the non-positive duration rather than
failing fast. -/
theorem nonpositive_timeout_fire_enabled (cfg : CallArgs) (bot wid : String)
    (s0 s : Sys) (w : Wait)
    (hneg : cfg.timeout_seconds ≤ 0)
    (h0 : Init wid s0) (hr : Reachable cfg bot wid s0 s)
    (hw : getWait wid s.waits = some w) (ht : w.timer = .armed) :
    Step cfg bot wid s { s with waits := timeoutFireAt wid s.waits } := by
  have inv := inv_reachable cfg bot wid s0 s h0 hr
  refine Step.fire s wid w hw ht ?_
  intro w' hw' hid
  obtain ⟨h1, h2⟩ := inv.tfields w' hw' hid
  unfold fireDeadline
  rw [h1, max_eq_right hneg]
  simpa using h2

/-- Witness for C7 (amended): at the concrete registered state of the
negative-timeout run, the firing step is enabled immediately. -/
theorem nonpositive_timeout_fire_enabled_witness :
    Step cfgN botA widA sysN2 { sysN2 with waits := timeoutFireAt widA sysN2.waits } :=
  nonpositive_timeout_fire_enabled cfgN botA widA sysA0 sysN2 (mkWait cfgN widA 0)
    (by decide) initA0 reachN2 (by decide) rfl

/-- C8 (amended): when a qualifying event resolves the wait, the outcome slot
delivered to the waiter carries all four matched fields (message, sender,
room, timestamp), but the text returned to the caller of the send-then-wait
call renders only the sender and the body. -/
theorem response_outcome_fields (cfg : CallArgs) (bot wid : String) (s0 s : Sys)
    (d : ResponseData)
    (h0 : Init wid s0) (hr : Reachable cfg bot wid s0 s)
    (hp : s.phase = .returnedResponse d) :
    returnText s.phase
      = some ("Received response from " ++ d.sender ++ ": " ++ d.message)
    ∧ ∃ (i : Nat) (w : Wait), s.waits[i]? = some w ∧ w.id = wid
        ∧ w.future = .result d := by
  refine ⟨by rw [hp]; rfl, (inv_reachable cfg bot wid s0 s h0 hr).responsePhase d hp⟩

/-- Witness for C8 (amended): evaluated at the end of the concrete success
run, in which `@alice:hs` answered in the scenario room at timestamp 5. -/
theorem response_outcome_fields_witness :
    returnText sysB4.phase
      = some ("Received response from " ++ dB.sender ++ ": " ++ dB.message)
    ∧ ∃ (i : Nat) (w : Wait), sysB4.waits[i]? = some w ∧ w.id = widA
        ∧ w.future = .result dB :=
  response_outcome_fields cfgA botA widA sysA0 sysB4 dB initA0 reachB4 rfl

end MatrixChat
